import Mathlib

/-
  Verification of the identity-document consensus core of the cothority
  repository (package `identity`).  The package's implementation is not part
  of the sampled sources (only its test file `identity/api_test.go` and some
  callers are), so the engine below is modelled from the specification,
  constrained by the observable behaviour that the test file demands.
-/

namespace identity

/-- Modelled from the spec: an association-list lookup, standing for a Go map
read `m[k]`. -/
def alookup {α β : Type} [DecidableEq α] : List (α × β) → α → Option β
  | [], _ => none
  | (k, v) :: rest, key => if k = key then some v else alookup rest key

/-- Modelled from the spec: an association-list overwrite-insert, standing for
a Go map write `m[k] = v`.  An existing entry for the key is replaced in
place; a missing key is appended. -/
def ainsert {α β : Type} [DecidableEq α] : List (α × β) → α → β → List (α × β)
  | [], key, val => [(key, val)]
  | (k, v) :: rest, key, val =>
    if k = key then (key, val) :: rest else (k, v) :: ainsert rest key val

/-- The keys of an association list. -/
def akeys {α β : Type} (l : List (α × β)) : List α := l.map Prod.fst

/-- Number of entries carried by one key (1 or 0 for a well-formed map). -/
def countKey {β : Type} : List (String × β) → String → Nat
  | [], _ => 0
  | kv :: rest, d => (if kv.1 = d then 1 else 0) + countKey rest d

/-- A registered device: `Device` of the Go `identity` package, holding the
device's public key (`Point`), modelled as a natural number. -/
structure Device where
  Point : Nat
deriving DecidableEq

/-- The governed Document: the Go type `Data` (threshold, named device keys,
arbitrary key/value storage).  Modelled from the spec: a Document, once
committed, is never mutated; edits produce new values. -/
structure Data where
  Threshold : Nat
  Device : List (String × Device)
  Storage : List (String × String)
deriving DecidableEq

/-- Modelled from the spec: `clone_for_edit` / `Data.Copy`, the deep copy of a
Document used as basis of the next candidate.  Each map entry is rebuilt so
the copy shares no mutable structure with the original. -/
def Data.Copy (d : Data) : Data :=
  ⟨d.Threshold,
   d.Device.map (fun kv => (kv.1, ⟨kv.2.Point⟩)),
   d.Storage.map (fun kv => (kv.1, kv.2))⟩

/-- Modelled from the spec: a vote proof is the device's signature over a
canonical encoding of the pending proposal's target; with ideal signatures it
is modelled as carrying the signing key and the signed target value. -/
structure VoteProof where
  key : Nat
  signedTarget : Data
deriving DecidableEq

/-- Modelled from the spec: a Proposal — a candidate next Document plus its
voting state, at most one vote entry per device. -/
structure Proposal where
  target : Data
  votes : List (String × Bool)
deriving DecidableEq

/-- Modelled from the spec: per-node, per-identity storage — the committed
Document and the optional pending Proposal. -/
structure IdentityStorage where
  committed : Data
  pending : Option Proposal
deriving DecidableEq

/-- The error kinds of the store operations (spec section 7). -/
inductive IdError where
  | NotFound
  | AlreadyExists
  | Unauthorized
  | InvalidProof
  | LedgerUnavailable
deriving DecidableEq

/-- Outcome of a `castVote` call: `ok b` reports whether the vote triggered a
commit, `err e` a typed failure. -/
inductive VoteOutcome where
  | ok (didCommit : Bool)
  | err (e : IdError)
deriving DecidableEq

/-- Result of a `castVote` call: the updated per-identity storage, the
outcome, and the list of documents handed to the ledger adapter's
`link_and_sign` during the call (so exactly-once can be stated). -/
structure VoteResult where
  store : IdentityStorage
  outcome : VoteOutcome
  ledgerCalls : List Data
deriving DecidableEq

/-- Count of accept votes in a vote map. -/
def acceptCount : List (String × Bool) → Nat
  | [] => 0
  | kv :: rest => (if kv.2 then 1 else 0) + acceptCount rest

/-- Whether every device of the committed Document has an accept vote
recorded.  Modelled from the spec and the tests: `TestIdentity_ProposeVote`
(threshold 50, a single committed device, one accept vote commits) requires
the commit rule to also fire when all committed devices have accepted, in
addition to the spec's accept-count-reaches-threshold rule. -/
def allDevicesAccepted (dta : Data) (votes : List (String × Bool)) : Bool :=
  dta.Device.all (fun kv => alookup votes kv.1 == some true)

/-- The commit condition checked after a vote is recorded: the accept count
reaches the committed Document's threshold, or every committed device has
accepted (the rule `TestIdentity_ProposeVote` requires). -/
def commitCond (st : IdentityStorage) (v : List (String × Bool)) : Prop :=
  st.committed.Threshold ≤ acceptCount v ∨
    allDevicesAccepted st.committed v = true

instance (st : IdentityStorage) (v : List (String × Bool)) :
    Decidable (commitCond st v) := by
  unfold commitCond
  infer_instance

/-- Modelled from the spec: the commit step inside `cast_vote`.  After the
vote is recorded, if the accept count reaches the committed threshold (or all
committed devices have accepted, as the tests require), the store commits:
`committed := pending.target`, `pending := none`, and the new committed
Document is handed to the ledger adapter.  A ledger failure rolls the commit
back: `committed` and `pending` are left in place, only the vote stays
recorded. -/
def commitCheck (L : Data → Option Nat) (st : IdentityStorage) (p : Proposal)
    (votes' : List (String × Bool)) : VoteResult :=
  if commitCond st votes' then
    match L p.target with
    | some _ => ⟨⟨p.target, none⟩, .ok true, [p.target]⟩
    | none =>
      ⟨⟨st.committed, some ⟨p.target, votes'⟩⟩, .err .LedgerUnavailable,
        [p.target]⟩
  else ⟨⟨st.committed, some ⟨p.target, votes'⟩⟩, .ok false, []⟩

/-- Modelled from the spec: `cast_vote(id, device_name, accept, proof)`.
Fails `NotFound` without a pending proposal; fails `Unauthorized` when the
voter is not in the *committed* Document's device set; fails `InvalidProof`
when the proof is not the voter's signature over the pending target; else
records `votes[device_name] = accept` (overwrite) and commits on threshold. -/
def castVote (L : Data → Option Nat) (st : IdentityStorage) (d : String)
    (accept : Bool) (pf : VoteProof) : VoteResult :=
  match st.pending with
  | none => ⟨st, .err .NotFound, []⟩
  | some p =>
    match alookup st.committed.Device d with
    | none => ⟨st, .err .Unauthorized, []⟩
    | some dev =>
      if pf.key = dev.Point ∧ pf.signedTarget = p.target then
        commitCheck L st p (ainsert p.votes d accept)
      else ⟨st, .err .InvalidProof, []⟩

/-- Modelled from the spec: `submit_proposal` replaces `pending` with a fresh
Proposal over the target and an empty vote map, unconditionally discarding
any in-flight tally.  It performs no authority check. -/
def IdentityStorage.submitProposal (st : IdentityStorage) (target : Data) :
    IdentityStorage :=
  ⟨st.committed, some ⟨target, []⟩⟩

/-- Modelled from the spec: `get_pending` returns the current pending
proposal, or none. -/
def IdentityStorage.getPending (st : IdentityStorage) : Option Proposal :=
  st.pending

/-- A node's identity store: one `IdentityStorage` per identity id. -/
abbrev IdentityStore : Type := List (Nat × IdentityStorage)

/-- Modelled from the spec: `create(id, genesis_doc)` fails `AlreadyExists`
if the id is present (leaving the store as it was); otherwise it initializes
`committed = genesis_doc`, `pending = none`. -/
def IdentityStore.create (s : IdentityStore) (i : Nat) (genesis : Data) :
    IdentityStore × Option IdError :=
  match alookup s i with
  | some _ => (s, some .AlreadyExists)
  | none => (ainsert s i ⟨genesis, none⟩, none)

/-- Modelled from the spec: `get_committed(id)`, `NotFound` when absent. -/
def IdentityStore.getCommitted (s : IdentityStore) (i : Nat) : Option Data :=
  (alookup s i).map IdentityStorage.committed

/-- An operation a single device can drive on its own against one identity's
storage: submit a proposal, or cast a vote. -/
inductive DeviceOp where
  | submit (target : Data)
  | vote (accept : Bool) (pf : VoteProof)

/-- One step of a single device acting alone. -/
def stepOwn (L : Data → Option Nat) (d : String) (st : IdentityStorage) :
    DeviceOp → IdentityStorage
  | .submit t => st.submitProposal t
  | .vote a pf => (castVote L st d a pf).store

/-- A sequence of operations all driven by one device. -/
def runOwn (L : Data → Option Nat) (d : String) (st : IdentityStorage) :
    List DeviceOp → IdentityStorage
  | [] => st
  | op :: ops => runOwn L d (stepOwn L d st op) ops

/-- The device-side session: the Go type `Identity` (device name, identity
id, own public key, the known committed `Data` and the optional `Proposed`
candidate). -/
structure Identity where
  DeviceName : String
  ID : Nat
  Public : Nat
  Data : Data
  Proposed : Option identity.Data
deriving DecidableEq

/-- A token of the marshalled byte stream: `SaveToStream` marshals the whole
session field by field; the stream is modelled as a flat token list. -/
inductive Tok where
  | num (n : Nat)
  | str (s : String)
deriving DecidableEq

/-- Marshalling of the device map: name/key pairs in order. -/
def encodeDevices : List (String × Device) → List Tok
  | [] => []
  | kv :: rest => Tok.str kv.1 :: Tok.num kv.2.Point :: encodeDevices rest

/-- Marshalling of the storage map: name/value pairs in order. -/
def encodeStorage : List (String × String) → List Tok
  | [] => []
  | kv :: rest => Tok.str kv.1 :: Tok.str kv.2 :: encodeStorage rest

/-- Marshalling of a Document. -/
def encodeData (d : Data) : List Tok :=
  Tok.num d.Threshold :: Tok.num d.Device.length :: encodeDevices d.Device ++
    Tok.num d.Storage.length :: encodeStorage d.Storage

/-- Marshalling of the optional proposed Document. -/
def encodeOptData : Option Data → List Tok
  | none => [Tok.num 0]
  | some d => Tok.num 1 :: encodeData d

/-- Modelled from the spec: `Identity.SaveToStream` writes the marshalled
session to a stream (the implementation `network.Marshal` is absent from the
sampled sources; the test `TestIdentity_SaveToStream` fixes its contract). -/
def Identity.SaveToStream (i : Identity) : List Tok :=
  Tok.str i.DeviceName :: Tok.num i.ID :: Tok.num i.Public ::
    encodeData i.Data ++ encodeOptData i.Proposed

/-- Unmarshalling of a length-prefixed device map. -/
def decodeDevices : Nat → List Tok → Option (List (String × Device) × List Tok)
  | 0, rest => some ([], rest)
  | n + 1, Tok.str k :: Tok.num p :: rest =>
    (decodeDevices n rest).map (fun r => ((k, ⟨p⟩) :: r.1, r.2))
  | _ + 1, _ => none

/-- Unmarshalling of a length-prefixed storage map. -/
def decodeStorage : Nat → List Tok → Option (List (String × String) × List Tok)
  | 0, rest => some ([], rest)
  | n + 1, Tok.str k :: Tok.str v :: rest =>
    (decodeStorage n rest).map (fun r => ((k, v) :: r.1, r.2))
  | _ + 1, _ => none

/-- Unmarshalling of a Document. -/
def decodeData : List Tok → Option (Data × List Tok)
  | Tok.num t :: Tok.num nd :: rest => do
    let rd ← decodeDevices nd rest
    match rd.2 with
    | Tok.num ns :: rest2 => do
      let rs ← decodeStorage ns rest2
      some (⟨t, rd.1, rs.1⟩, rs.2)
    | _ => none
  | _ => none

/-- Unmarshalling of the optional proposed Document. -/
def decodeOptData : List Tok → Option (Option Data × List Tok)
  | Tok.num 0 :: rest => some (none, rest)
  | Tok.num 1 :: rest => (decodeData rest).map (fun r => (some r.1, r.2))
  | _ => none

/-- Modelled from the spec: `NewIdentityFromStream` reads a whole stream back
into a session (absent from the sampled sources; contract fixed by
`TestIdentity_SaveToStream`). -/
def NewIdentityFromStream : List Tok → Option Identity
  | Tok.str nm :: Tok.num i :: Tok.num pub :: rest => do
    let rd ← decodeData rest
    let rp ← decodeOptData rd.2
    if rp.2 = [] then some ⟨nm, i, pub, rd.1, rp.1⟩ else none
  | _ => none

/-! ### Concrete sample values, used to instantiate the theorems -/

/-- A committed genesis Document: one device, threshold 2. -/
def docOne : Data := ⟨2, [("one", ⟨1⟩)], [("one", "pub1")]⟩

/-- A candidate Document adding device `two`. -/
def docOneTwo : Data :=
  ⟨2, [("one", ⟨1⟩), ("two", ⟨2⟩)], [("one", "pub1"), ("two", "pub2")]⟩

/-- The genesis of `TestIdentity_ProposeVote`: threshold 50, one device. -/
def doc50 : Data := ⟨50, [("one1", ⟨1⟩)], []⟩

/-- The candidate of `TestIdentity_ProposeVote`: device `two2` added. -/
def doc50Two : Data :=
  ⟨50, [("one1", ⟨1⟩), ("two2", ⟨2⟩)], [("two2", "public2")]⟩

/-- Storage holding `docOne` committed and the `docOneTwo` candidate. -/
def stPending : IdentityStorage := ⟨docOne, some ⟨docOneTwo, []⟩⟩

/-- Storage holding `doc50` committed and the `doc50Two` candidate. -/
def st50 : IdentityStorage := ⟨doc50, some ⟨doc50Two, []⟩⟩

/-- An always-available ledger adapter. -/
def okLedger : Data → Option Nat := fun _ => some 0

/-- An unavailable ledger adapter. -/
def noLedger : Data → Option Nat := fun _ => none

/-- A sample client session. -/
def sessionOne : Identity := ⟨"one", 7, 1, docOne, some docOneTwo⟩

/-! ### Association-list lemmas -/

theorem alookup_ainsert_self {α β : Type} [DecidableEq α]
    (l : List (α × β)) (k : α)
    (v : β) : alookup (ainsert l k v) k = some v := by
  induction l with
  | nil => simp [ainsert, alookup]
  | cons hd tl ih =>
    obtain ⟨k0, v0⟩ := hd
    by_cases h : k0 = k
    · simp [ainsert, alookup, h]
    · simp [ainsert, alookup, h, ih]

theorem alookup_ainsert_ne {α β : Type} [DecidableEq α]
    (l : List (α × β)) (k k' : α)
    (v : β) (hne : k' ≠ k) : alookup (ainsert l k v) k' = alookup l k' := by
  have hkk : ¬(k = k') := fun h => hne h.symm
  induction l with
  | nil => simp [ainsert, alookup, hkk]
  | cons hd tl ih =>
    obtain ⟨k0, v0⟩ := hd
    by_cases h : k0 = k
    · subst h
      simp [ainsert, alookup, hkk]
    · by_cases h2 : k0 = k'
      · simp [ainsert, alookup, h, h2, hne]
      · simp [ainsert, alookup, h, h2, ih]

theorem ainsert_ainsert_same {α β : Type} [DecidableEq α]
    (l : List (α × β)) (k : α)
    (a b : β) : ainsert (ainsert l k a) k b = ainsert l k b := by
  induction l with
  | nil => simp [ainsert]
  | cons hd tl ih =>
    obtain ⟨k0, v0⟩ := hd
    by_cases h : k0 = k
    · simp [ainsert, h]
    · simp [ainsert, h, ih]

theorem countKey_ainsert {β : Type} (l : List (String × β)) (k : String)
    (v : β) (h : countKey l k ≤ 1) : countKey (ainsert l k v) k = 1 := by
  induction l with
  | nil => simp [countKey, ainsert]
  | cons hd tl ih =>
    obtain ⟨k0, v0⟩ := hd
    by_cases hk : k0 = k
    · subst hk
      simp [countKey, ainsert] at h ⊢
      omega
    · simp only [countKey, ainsert, hk, if_neg hk, if_false] at h ⊢
      simp only [Nat.zero_add] at h ⊢
      exact ih h

theorem acceptCount_ainsert_le (l : List (String × Bool)) (k : String)
    (b : Bool) : acceptCount (ainsert l k b) ≤ acceptCount l + 1 := by
  induction l with
  | nil => cases b <;> simp [acceptCount, ainsert]
  | cons hd tl ih =>
    obtain ⟨k0, v0⟩ := hd
    by_cases h : k0 = k
    · subst h
      simp only [acceptCount, ainsert, if_pos rfl]
      cases b <;> cases v0 <;> simp <;> omega
    · cases v0 <;> simp [acceptCount, ainsert, h] <;> omega

/-! ### Characterization of `castVote` and `commitCheck` -/

theorem commitCheck_commit {L : Data → Option Nat} {st : IdentityStorage}
    {p : Proposal} {v : List (String × Bool)} {r : Nat}
    (h : commitCond st v) (hL : L p.target = some r) :
    commitCheck L st p v = ⟨⟨p.target, none⟩, .ok true, [p.target]⟩ := by
  unfold commitCheck
  rw [if_pos h, hL]

theorem commitCheck_ledgerFail {L : Data → Option Nat} {st : IdentityStorage}
    {p : Proposal} {v : List (String × Bool)}
    (h : commitCond st v) (hL : L p.target = none) :
    commitCheck L st p v =
      ⟨⟨st.committed, some ⟨p.target, v⟩⟩, .err .LedgerUnavailable,
        [p.target]⟩ := by
  unfold commitCheck
  rw [if_pos h, hL]

theorem commitCheck_noCommit {L : Data → Option Nat} {st : IdentityStorage}
    {p : Proposal} {v : List (String × Bool)} (h : ¬commitCond st v) :
    commitCheck L st p v =
      ⟨⟨st.committed, some ⟨p.target, v⟩⟩, .ok false, []⟩ := by
  unfold commitCheck
  rw [if_neg h]

theorem commitCheck_outcome_not_unauthorized (L : Data → Option Nat)
    (st : IdentityStorage) (p : Proposal) (v : List (String × Bool)) :
    (commitCheck L st p v).outcome ≠ VoteOutcome.err IdError.Unauthorized := by
  by_cases h : commitCond st v
  · cases hL : L p.target
    · rw [commitCheck_ledgerFail h hL]
      simp
    · rw [commitCheck_commit h hL]
      simp
  · rw [commitCheck_noCommit h]
    simp

theorem commitCheck_ok_true {L : Data → Option Nat} {st : IdentityStorage}
    {p : Proposal} {v : List (String × Bool)}
    (h : (commitCheck L st p v).outcome = .ok true) :
    commitCheck L st p v = ⟨⟨p.target, none⟩, .ok true, [p.target]⟩ := by
  by_cases hc : commitCond st v
  · cases hL : L p.target
    · rw [commitCheck_ledgerFail hc hL] at h
      simp at h
    · exact commitCheck_commit hc hL
  · rw [commitCheck_noCommit hc] at h
    simp at h

theorem castVote_pending_none {L : Data → Option Nat} {st : IdentityStorage}
    {d : String} {a : Bool} {pf : VoteProof} (h : st.pending = none) :
    castVote L st d a pf = ⟨st, .err .NotFound, []⟩ := by
  simp [castVote, h]

theorem castVote_unauthorized {L : Data → Option Nat} {st : IdentityStorage}
    {p : Proposal} {d : String} {a : Bool} {pf : VoteProof}
    (h1 : st.pending = some p)
    (h2 : alookup st.committed.Device d = none) :
    castVote L st d a pf = ⟨st, .err .Unauthorized, []⟩ := by
  simp [castVote, h1, h2]

theorem castVote_invalidProof {L : Data → Option Nat} {st : IdentityStorage}
    {p : Proposal} {d : String} {a : Bool} {pf : VoteProof} {dev : Device}
    (h1 : st.pending = some p)
    (h2 : alookup st.committed.Device d = some dev)
    (h3 : ¬(pf.key = dev.Point ∧ pf.signedTarget = p.target)) :
    castVote L st d a pf = ⟨st, .err .InvalidProof, []⟩ := by
  simp [castVote, h1, h2, h3]

theorem castVote_valid {L : Data → Option Nat} {st : IdentityStorage}
    {p : Proposal} {d : String} {a : Bool} {pf : VoteProof} {dev : Device}
    (h1 : st.pending = some p)
    (h2 : alookup st.committed.Device d = some dev)
    (h3 : pf.key = dev.Point ∧ pf.signedTarget = p.target) :
    castVote L st d a pf = commitCheck L st p (ainsert p.votes d a) := by
  simp [castVote, h1, h2, h3]

theorem castVote_ok_true {L : Data → Option Nat} {st : IdentityStorage}
    {p : Proposal} {d : String} {a : Bool} {pf : VoteProof}
    (h1 : st.pending = some p)
    (h : (castVote L st d a pf).outcome = .ok true) :
    castVote L st d a pf = ⟨⟨p.target, none⟩, .ok true, [p.target]⟩ := by
  cases h2 : alookup st.committed.Device d with
  | none =>
    rw [castVote_unauthorized h1 h2] at h
    simp at h
  | some dev =>
    by_cases h3 : pf.key = dev.Point ∧ pf.signedTarget = p.target
    · rw [castVote_valid h1 h2 h3] at h ⊢
      exact commitCheck_ok_true h
    · rw [castVote_invalidProof h1 h2 h3] at h
      simp at h

theorem castVote_ok_false {L : Data → Option Nat} {st : IdentityStorage}
    {p : Proposal} {d : String} {a : Bool} {pf : VoteProof}
    (h1 : st.pending = some p)
    (h : (castVote L st d a pf).outcome = .ok false) :
    castVote L st d a pf =
      ⟨⟨st.committed, some ⟨p.target, ainsert p.votes d a⟩⟩, .ok false, []⟩ ∧
    ¬commitCond st (ainsert p.votes d a) ∧
    ∃ dv, alookup st.committed.Device d = some dv ∧
      pf.key = dv.Point ∧ pf.signedTarget = p.target := by
  cases h2 : alookup st.committed.Device d with
  | none =>
    rw [castVote_unauthorized h1 h2] at h
    simp at h
  | some dv =>
    by_cases h3 : pf.key = dv.Point ∧ pf.signedTarget = p.target
    · rw [castVote_valid h1 h2 h3] at h ⊢
      by_cases hc : commitCond st (ainsert p.votes d a)
      · cases hL : L p.target
        · rw [commitCheck_ledgerFail hc hL] at h
          simp at h
        · rw [commitCheck_commit hc hL] at h
          simp at h
      · exact ⟨commitCheck_noCommit hc, hc, dv, rfl, h3⟩
    · rw [castVote_invalidProof h1 h2 h3] at h
      simp at h

theorem castVote_store_of_unauth {L : Data → Option Nat}
    {st : IdentityStorage} {d : String} {a : Bool} {pf : VoteProof}
    (h2 : alookup st.committed.Device d = none) :
    (castVote L st d a pf).store = st := by
  cases h1 : st.pending with
  | none => rw [castVote_pending_none h1]
  | some p => rw [castVote_unauthorized h1 h2]

/-! ### Single-device runs -/

theorem runOwn_committed_of_unauth (L : Data → Option Nat) (d : String) :
    ∀ (ops : List DeviceOp) (st : IdentityStorage),
      alookup st.committed.Device d = none →
      (runOwn L d st ops).committed = st.committed := by
  intro ops
  induction ops with
  | nil =>
    intro st _
    rfl
  | cons op tl ih =>
    intro st h
    cases op with
    | submit t =>
      exact ih (st.submitProposal t) h
    | vote a pf =>
      have hs : (castVote L st d a pf).store = st := castVote_store_of_unauth h
      show (runOwn L d ((castVote L st d a pf).store) tl).committed =
        st.committed
      rw [hs]
      exact ih st h

/-! ### Stream round-trip -/

theorem decodeDevices_encode (l : List (String × Device)) (rest : List Tok) :
    decodeDevices l.length (encodeDevices l ++ rest) = some (l, rest) := by
  induction l with
  | nil => rfl
  | cons hd tl ih =>
    obtain ⟨k, dv⟩ := hd
    obtain ⟨pt⟩ := dv
    simp [encodeDevices, decodeDevices, ih]

theorem decodeStorage_encode (l : List (String × String)) (rest : List Tok) :
    decodeStorage l.length (encodeStorage l ++ rest) = some (l, rest) := by
  induction l with
  | nil => rfl
  | cons hd tl ih =>
    obtain ⟨k, v⟩ := hd
    simp [encodeStorage, decodeStorage, ih]

theorem decodeData_encode (d : Data) (rest : List Tok) :
    decodeData (encodeData d ++ rest) = some (d, rest) := by
  obtain ⟨t, dev, stor⟩ := d
  simp only [encodeData, List.cons_append, List.append_assoc]
  rw [decodeData]
  rw [decodeDevices_encode]
  simp [decodeStorage_encode]

theorem decodeOptData_encode (o : Option Data) (rest : List Tok) :
    decodeOptData (encodeOptData o ++ rest) = some (o, rest) := by
  cases o with
  | none => simp [encodeOptData, decodeOptData]
  | some d => simp [encodeOptData, decodeOptData, decodeData_encode]

/-! ### The claims -/

/-- C1: with a pending proposal in place, `cast_vote` fails `Unauthorized`
exactly when the voting device is not a key of the last committed Document's
device set at the time the vote is processed; moreover, once a proposal whose
target omits a device commits, every subsequent vote by that device (on any
newly submitted proposal against the same storage) fails `Unauthorized` —
the device's own session view plays no part in the check. -/
theorem castVote_unauthorized_iff_not_committed_member
    (L : Data → Option Nat) (st : IdentityStorage) (p : Proposal) (d : String)
    (a : Bool) (pf : VoteProof) (h : st.pending = some p) :
    ((castVote L st d a pf).outcome = .err .Unauthorized ↔
      alookup st.committed.Device d = none) ∧
    (∀ d0 a0 pf0 t a' pf',
      (castVote L st d0 a0 pf0).outcome = .ok true →
      alookup p.target.Device d = none →
      (castVote L (((castVote L st d0 a0 pf0).store).submitProposal t) d a'
        pf').outcome = .err .Unauthorized) := by
  constructor
  · constructor
    · intro hu
      cases h2 : alookup st.committed.Device d with
      | none => rfl
      | some dv =>
        exfalso
        by_cases h3 : pf.key = dv.Point ∧ pf.signedTarget = p.target
        · rw [castVote_valid h h2 h3] at hu
          exact commitCheck_outcome_not_unauthorized L st p _ hu
        · rw [castVote_invalidProof h h2 h3] at hu
          simp at hu
    · intro h2
      rw [castVote_unauthorized h h2]
  · intro d0 a0 pf0 t a' pf' hok hnd
    rw [castVote_ok_true h hok]
    show (castVote L
      (IdentityStorage.submitProposal ⟨p.target, none⟩ t) d a' pf').outcome =
      .err .Unauthorized
    rw [@castVote_unauthorized L (IdentityStorage.submitProposal
      ⟨p.target, none⟩ t) ⟨t, []⟩ d a' pf' rfl hnd]

/-- C1 witness: in `stPending` (committed `docOne`, candidate pending) a
device not listed in the committed Document is refused. -/
theorem castVote_unauthorized_iff_not_committed_member_witness :
    ((castVote okLedger stPending "three" true ⟨3, docOneTwo⟩).outcome =
        .err .Unauthorized ↔
      alookup stPending.committed.Device "three" = none) :=
  (castVote_unauthorized_iff_not_committed_member okLedger stPending
    ⟨docOneTwo, []⟩ "three" true ⟨3, docOneTwo⟩ rfl).1

/-- C2 counterexample: the claim "casting t-1 accept votes never commits"
fails on the code.  With committed threshold 2 and a single committed device,
the first accept vote — only t-1 = 1 accepts — already commits, because
every committed device has then accepted (the rule `TestIdentity_ProposeVote`
exercises with threshold 50 and one device). -/
theorem threshold_exactness_counterexample :
    stPending.committed.Threshold = 2 ∧
    acceptCount (ainsert ([] : List (String × Bool)) "one" true) = 1 ∧
    (castVote okLedger stPending "one" true ⟨1, docOneTwo⟩).outcome =
      .ok true ∧
    (castVote okLedger stPending "one" true ⟨1, docOneTwo⟩).store.pending =
      none := by
  refine ⟨rfl, rfl, ?_, ?_⟩ <;> decide

/-- C2 (amended): provided the accepting devices do not yet comprise the
whole committed device set, fewer than t accept votes never commit; a vote
that brings the accept count to the committed threshold t commits exactly
once (committed becomes the target, pending is cleared, one ledger call);
and any vote against a storage with no pending proposal fails `NotFound`. -/
theorem threshold_exactness_amended (L : Data → Option Nat)
    (st : IdentityStorage) (p : Proposal) (d : String) (pf : VoteProof)
    (dv : Device) (r : Nat)
    (h1 : st.pending = some p)
    (h2 : alookup st.committed.Device d = some dv)
    (h3 : pf.key = dv.Point ∧ pf.signedTarget = p.target) :
    (acceptCount (ainsert p.votes d true) < st.committed.Threshold →
      allDevicesAccepted st.committed (ainsert p.votes d true) = false →
      castVote L st d true pf =
        ⟨⟨st.committed, some ⟨p.target, ainsert p.votes d true⟩⟩, .ok false,
          []⟩) ∧
    (st.committed.Threshold ≤ acceptCount (ainsert p.votes d true) →
      L p.target = some r →
      castVote L st d true pf = ⟨⟨p.target, none⟩, .ok true, [p.target]⟩) ∧
    (∀ st' : IdentityStorage, st'.pending = none →
      ∀ d' a' pf', castVote L st' d' a' pf' = ⟨st', .err .NotFound, []⟩) := by
  refine ⟨?_, ?_, ?_⟩
  · intro hlt hall
    rw [castVote_valid h1 h2 h3]
    refine commitCheck_noCommit ?_
    intro hc
    rcases hc with hc | hc
    · omega
    · rw [hall] at hc
      cases hc
  · intro hge hL
    rw [castVote_valid h1 h2 h3]
    exact commitCheck_commit (Or.inl hge) hL
  · intro st' hp d' a' pf'
    exact castVote_pending_none hp

/-- C2 witness: committed devices one and two, threshold 2, one prior accept
from device one; device two's accept is the t-th and commits. -/
theorem threshold_exactness_amended_witness :
    castVote okLedger ⟨docOneTwo, some ⟨docOne, [("one", true)]⟩⟩ "two" true
      ⟨2, docOne⟩ = ⟨⟨docOne, none⟩, .ok true, [docOne]⟩ :=
  (threshold_exactness_amended okLedger
    ⟨docOneTwo, some ⟨docOne, [("one", true)]⟩⟩ ⟨docOne, [("one", true)]⟩
    "two" ⟨2, docOne⟩ ⟨2⟩ 0 rfl rfl ⟨rfl, rfl⟩).2.1 (by decide) rfl

/-- C3: submitting a new proposal replaces any pending Proposal, however many
votes it had, by a fresh Proposal over the new target with an empty vote map:
`get_pending` then shows zero votes and no previous-round vote survives. -/
theorem submitProposal_resets_votes (st : IdentityStorage) (p : Proposal)
    (t : Data) (h : st.pending = some p) :
    (st.submitProposal t).getPending = some ⟨t, []⟩ ∧
    (∀ q, (st.submitProposal t).getPending = some q →
      q.target = t ∧ q.votes = [] ∧ acceptCount q.votes = 0) := by
  refine ⟨rfl, ?_⟩
  intro q hq
  have : q = ⟨t, []⟩ := by
    simpa [IdentityStorage.submitProposal, IdentityStorage.getPending]
      using hq.symm
  subst this
  exact ⟨rfl, rfl, rfl⟩

/-- C3 witness: a pending proposal with one recorded vote is replaced by a
fresh zero-vote proposal. -/
theorem submitProposal_resets_votes_witness :
    ((⟨docOne, some ⟨docOneTwo, [("one", true)]⟩⟩ :
        IdentityStorage).submitProposal doc50).getPending =
      some ⟨doc50, []⟩ :=
  (submitProposal_resets_votes ⟨docOne, some ⟨docOneTwo, [("one", true)]⟩⟩
    ⟨docOneTwo, [("one", true)]⟩ doc50 rfl).1

/-- C4: `cast_vote` commits as soon as every device of the committed
Document has an accept vote recorded, even when the accept count is strictly
below the committed threshold (e.g. a single-device identity with threshold
50 commits after one accept vote, as in `TestIdentity_ProposeVote`). -/
theorem commit_when_all_devices_accept (L : Data → Option Nat)
    (st : IdentityStorage) (p : Proposal) (d : String) (pf : VoteProof)
    (dv : Device) (r : Nat)
    (h1 : st.pending = some p)
    (h2 : alookup st.committed.Device d = some dv)
    (h3 : pf.key = dv.Point ∧ pf.signedTarget = p.target)
    (h4 : allDevicesAccepted st.committed (ainsert p.votes d true) = true)
    (h5 : acceptCount (ainsert p.votes d true) < st.committed.Threshold)
    (h6 : L p.target = some r) :
    castVote L st d true pf = ⟨⟨p.target, none⟩, .ok true, [p.target]⟩ := by
  rw [castVote_valid h1 h2 h3]
  exact commitCheck_commit (Or.inr h4) h6

/-- C4 witness: the `TestIdentity_ProposeVote` shape — threshold 50, one
committed device, one accept vote, commit. -/
theorem commit_when_all_devices_accept_witness :
    castVote okLedger st50 "one1" true ⟨1, doc50Two⟩ =
      ⟨⟨doc50Two, none⟩, .ok true, [doc50Two]⟩ :=
  commit_when_all_devices_accept okLedger st50 ⟨doc50Two, []⟩ "one1"
    ⟨1, doc50Two⟩ ⟨1⟩ 0 rfl rfl ⟨rfl, rfl⟩ (by decide) (by decide) rfl

/-- C5: on a successful commit the ledger adapter is called exactly once,
within the same `cast_vote` call, before success is returned; when the
ledger is unavailable at commit time, `committed` is unchanged and the
pending proposal stays in place with the vote recorded, so retrying the same
vote once the ledger recovers commits without re-collecting votes. -/
theorem ledger_exactly_once_and_rollback (L M : Data → Option Nat)
    (st : IdentityStorage) (p : Proposal) (d : String) (a : Bool)
    (pf : VoteProof) (dv : Device) (r : Nat)
    (h1 : st.pending = some p) :
    ((castVote L st d a pf).outcome = .ok true →
      (castVote L st d a pf).ledgerCalls = [p.target]) ∧
    (alookup st.committed.Device d = some dv →
      pf.key = dv.Point ∧ pf.signedTarget = p.target →
      commitCond st (ainsert p.votes d a) →
      L p.target = none →
      M p.target = some r →
      castVote L st d a pf =
        ⟨⟨st.committed, some ⟨p.target, ainsert p.votes d a⟩⟩,
          .err .LedgerUnavailable, [p.target]⟩ ∧
      castVote M ((castVote L st d a pf).store) d a pf =
        ⟨⟨p.target, none⟩, .ok true, [p.target]⟩) := by
  constructor
  · intro hok
    rw [castVote_ok_true h1 hok]
  · intro h2 h3 hc hL hM
    have hfail : castVote L st d a pf =
        ⟨⟨st.committed, some ⟨p.target, ainsert p.votes d a⟩⟩,
          .err .LedgerUnavailable, [p.target]⟩ := by
      rw [castVote_valid h1 h2 h3]
      exact commitCheck_ledgerFail hc hL
    refine ⟨hfail, ?_⟩
    rw [hfail]
    show castVote M ⟨st.committed, some ⟨p.target, ainsert p.votes d a⟩⟩ d a
      pf = ⟨⟨p.target, none⟩, .ok true, [p.target]⟩
    rw [@castVote_valid M
      ⟨st.committed, some ⟨p.target, ainsert p.votes d a⟩⟩
      ⟨p.target, ainsert p.votes d a⟩ d a pf dv rfl h2 h3]
    dsimp only
    rw [ainsert_ainsert_same]
    exact commitCheck_commit hc hM

/-- C5 witness: threshold 2, two committed devices, device two's accept is
the second; the ledger is down so the commit rolls back, and the retried
vote commits once the ledger is back. -/
theorem ledger_exactly_once_and_rollback_witness :
    castVote noLedger ⟨docOneTwo, some ⟨docOne, [("one", true)]⟩⟩ "two" true
        ⟨2, docOne⟩ =
      ⟨⟨docOneTwo, some ⟨docOne, [("one", true), ("two", true)]⟩⟩,
        .err .LedgerUnavailable, [docOne]⟩ ∧
    castVote okLedger ((castVote noLedger
        ⟨docOneTwo, some ⟨docOne, [("one", true)]⟩⟩ "two" true
        ⟨2, docOne⟩).store) "two" true ⟨2, docOne⟩ =
      ⟨⟨docOne, none⟩, .ok true, [docOne]⟩ :=
  (ledger_exactly_once_and_rollback noLedger okLedger
    ⟨docOneTwo, some ⟨docOne, [("one", true)]⟩⟩ ⟨docOne, [("one", true)]⟩
    "two" true ⟨2, docOne⟩ ⟨2⟩ 0 rfl).2 rfl ⟨rfl, rfl⟩ (by decide) rfl rfl

/-- C6: `submit_proposal` performs no authority check — any holder of the id
may submit — but from any state where a device is absent from the committed
device set, no sequence of that device's own submits and votes ever changes
the committed Document or lets one of its votes report a commit; whenever a
proposal is pending, its vote fails `Unauthorized`. -/
theorem revoked_device_cannot_commit (L : Data → Option Nat)
    (st : IdentityStorage) (d : String)
    (h : alookup st.committed.Device d = none) :
    (∀ t, (st.submitProposal t).getPending = some ⟨t, []⟩) ∧
    (∀ ops : List DeviceOp,
      (runOwn L d st ops).committed = st.committed ∧
      (∀ a pf, (castVote L (runOwn L d st ops) d a pf).outcome ≠ .ok true) ∧
      (∀ a pf q, (runOwn L d st ops).pending = some q →
        (castVote L (runOwn L d st ops) d a pf).outcome =
          .err .Unauthorized)) := by
  refine ⟨fun t => rfl, ?_⟩
  intro ops
  have hcom : (runOwn L d st ops).committed = st.committed :=
    runOwn_committed_of_unauth L d ops st h
  have hlook : alookup (runOwn L d st ops).committed.Device d = none := by
    rw [hcom]
    exact h
  refine ⟨hcom, ?_, ?_⟩
  · intro a pf
    cases hp : (runOwn L d st ops).pending with
    | none =>
      rw [castVote_pending_none hp]
      simp
    | some q =>
      rw [castVote_unauthorized hp hlook]
      simp
  · intro a pf q hq
    rw [castVote_unauthorized hq hlook]

/-- C6 witness: after the revocation of device three (`docOneTwo`
committed), three submits its own proposal and votes on it; the committed
Document is unchanged and its vote cannot report a commit. -/
theorem revoked_device_cannot_commit_witness :
    (runOwn okLedger "three" ⟨docOneTwo, none⟩
        [DeviceOp.submit doc50, DeviceOp.vote true ⟨3, doc50⟩]).committed =
      (⟨docOneTwo, none⟩ : IdentityStorage).committed ∧
    (castVote okLedger (runOwn okLedger "three" ⟨docOneTwo, none⟩
        [DeviceOp.submit doc50, DeviceOp.vote true ⟨3, doc50⟩]) "three" true
        ⟨3, doc50⟩).outcome ≠ .ok true := by
  have h := (revoked_device_cannot_commit okLedger ⟨docOneTwo, none⟩ "three"
    (by decide)).2 [DeviceOp.submit doc50, DeviceOp.vote true ⟨3, doc50⟩]
  exact ⟨h.1, h.2.1 true ⟨3, doc50⟩⟩

/-- C7: a device voting twice on the same pending Proposal leaves at most
one entry for it in the vote map — the second call overwrites the first and
never raises the accept tally by two — and repeating the identical vote is
idempotent. -/
theorem vote_overwrite_idempotent (L : Data → Option Nat)
    (st st1 : IdentityStorage) (p : Proposal) (d : String) (a b : Bool)
    (pf : VoteProof)
    (h1 : st.pending = some p)
    (hdup : countKey p.votes d ≤ 1)
    (hcall : castVote L st d a pf = ⟨st1, .ok false, []⟩) :
    st1 = ⟨st.committed, some ⟨p.target, ainsert p.votes d a⟩⟩ ∧
    countKey (ainsert p.votes d a) d = 1 ∧
    ainsert (ainsert p.votes d a) d b = ainsert p.votes d b ∧
    acceptCount (ainsert (ainsert p.votes d a) d b) ≤
      acceptCount p.votes + 1 ∧
    castVote L st1 d a pf = ⟨st1, .ok false, []⟩ := by
  have hout : (castVote L st d a pf).outcome = .ok false := by
    rw [hcall]
  obtain ⟨heq, hnc, dv, h2, h3⟩ := castVote_ok_false h1 hout
  have hst1 : st1 = ⟨st.committed, some ⟨p.target, ainsert p.votes d a⟩⟩ :=
    congrArg VoteResult.store (hcall.symm.trans heq)
  refine ⟨hst1, countKey_ainsert p.votes d a hdup, ainsert_ainsert_same _ _
    _ _, ?_, ?_⟩
  · rw [ainsert_ainsert_same]
    exact acceptCount_ainsert_le p.votes d b
  · rw [hst1]
    rw [@castVote_valid L
      ⟨st.committed, some ⟨p.target, ainsert p.votes d a⟩⟩
      ⟨p.target, ainsert p.votes d a⟩ d a pf dv rfl h2 h3]
    dsimp only
    rw [ainsert_ainsert_same]
    exact commitCheck_noCommit hnc

/-- C7 witness: committed devices one and two with threshold 2; device one's
accept does not commit, and repeating the identical vote returns the same
state and outcome. -/
theorem vote_overwrite_idempotent_witness :
    castVote okLedger ⟨docOneTwo, some ⟨docOne, [("one", true)]⟩⟩ "one" true
        ⟨1, docOne⟩ =
      ⟨⟨docOneTwo, some ⟨docOne, [("one", true)]⟩⟩, .ok false, []⟩ :=
  (vote_overwrite_idempotent okLedger ⟨docOneTwo, some ⟨docOne, []⟩⟩
    ⟨docOneTwo, some ⟨docOne, [("one", true)]⟩⟩ ⟨docOne, []⟩ "one" true true
    ⟨1, docOne⟩ rfl (by decide) (by decide)).2.2.2.2

/-- C8: `create` on an already-present identity fails `AlreadyExists` and
leaves the store — in particular that identity's committed Document and
pending Proposal — unchanged; on an absent identity it succeeds and
initializes committed to the genesis Document and pending to none. -/
theorem create_already_exists_or_initializes (s : IdentityStore) (i : Nat)
    (g : Data) :
    (∀ st0, alookup s i = some st0 →
      s.create i g = (s, some .AlreadyExists) ∧
      alookup (s.create i g).1 i = some st0) ∧
    (alookup s i = none →
      (s.create i g).2 = none ∧
      alookup (s.create i g).1 i = some ⟨g, none⟩) := by
  constructor
  · intro st0 h0
    have he : s.create i g = (s, some .AlreadyExists) := by
      unfold IdentityStore.create
      rw [h0]
    refine ⟨he, ?_⟩
    rw [he]
    exact h0
  · intro h0
    have he : s.create i g = (ainsert s i ⟨g, none⟩, none) := by
      unfold IdentityStore.create
      rw [h0]
    rw [he]
    exact ⟨rfl, alookup_ainsert_self s i ⟨g, none⟩⟩

/-- C8 witness: creating identity 7 twice fails the second time with
`AlreadyExists`, leaving its storage in place. -/
theorem create_already_exists_or_initializes_witness :
    IdentityStore.create [(7, ⟨docOne, none⟩)] 7 docOneTwo =
      ([(7, ⟨docOne, none⟩)], some .AlreadyExists) :=
  ((create_already_exists_or_initializes [(7, ⟨docOne, none⟩)] 7
    docOneTwo).1 ⟨docOne, none⟩ rfl).1

theorem copyDevice_id (l : List (String × Device)) :
    l.map (fun kv => (kv.1, (⟨kv.2.Point⟩ : Device))) = l := by
  induction l with
  | nil => rfl
  | cons hd tl ih =>
    obtain ⟨k, ⟨pt⟩⟩ := hd
    simp [ih]

theorem copyStorage_id (l : List (String × String)) :
    l.map (fun kv => (kv.1, kv.2)) = l := by
  induction l with
  | nil => rfl
  | cons hd tl ih => simp [ih]

/-- C9: `Data.Copy` (clone_for_edit) returns a deep copy equal in content to
the original; a write to the copy's device or storage map is visible in the
copy, while every other key of the mutated copy still reads exactly as in the
original Document — a pure value operation with no side effect on the
original. -/
theorem copy_deep_and_pure (d : Data) (n : String) (dv : Device)
    (s v : String) :
    d.Copy = d ∧
    alookup (ainsert d.Copy.Device n dv) n = some dv ∧
    (∀ m, m ≠ n →
      alookup (ainsert d.Copy.Device n dv) m = alookup d.Device m) ∧
    alookup (ainsert d.Copy.Storage s v) s = some v ∧
    (∀ u, u ≠ s →
      alookup (ainsert d.Copy.Storage s v) u = alookup d.Storage u) := by
  have hc : d.Copy = d := by
    obtain ⟨t, dev, stor⟩ := d
    simp [Data.Copy, copyDevice_id, copyStorage_id]
  rw [hc]
  refine ⟨rfl, alookup_ainsert_self _ _ _, ?_, alookup_ainsert_self _ _ _,
    ?_⟩
  · intro m hm
    exact alookup_ainsert_ne _ _ _ _ hm
  · intro u hu
    exact alookup_ainsert_ne _ _ _ _ hu

/-- C9 witness: the `TestIdentity_DataNewCheck` shape — the copy of `docOne`
equals it, and adding device two to the copy is visible there while device
one still reads as in the original. -/
theorem copy_deep_and_pure_witness :
    docOne.Copy = docOne ∧
    alookup (ainsert docOne.Copy.Device "two" ⟨2⟩) "two" = some ⟨2⟩ :=
  ⟨(copy_deep_and_pure docOne "two" ⟨2⟩ "two" "public2").1,
    (copy_deep_and_pure docOne "two" ⟨2⟩ "two" "public2").2.1⟩

/-- C10: writing a session out with `SaveToStream` and reading it back with
`NewIdentityFromStream` is a round-trip: the reloaded session is the
original — in particular it has the same `Data.Threshold`, an equal public
key for each device name, and the same `Data.Storage` entries. -/
theorem save_load_roundtrip (i : Identity) :
    NewIdentityFromStream i.SaveToStream = some i ∧
    ∀ j, NewIdentityFromStream i.SaveToStream = some j →
      j.Data.Threshold = i.Data.Threshold ∧
      (∀ n, alookup j.Data.Device n = alookup i.Data.Device n) ∧
      j.Data.Storage = i.Data.Storage := by
  have h : NewIdentityFromStream i.SaveToStream = some i := by
    obtain ⟨nm, idn, pub, dta, prop⟩ := i
    have hopt : decodeOptData (encodeOptData prop) = some (prop, []) := by
      have h2 := decodeOptData_encode prop []
      rwa [List.append_nil] at h2
    show NewIdentityFromStream (Tok.str nm :: Tok.num idn :: Tok.num pub ::
      (encodeData dta ++ encodeOptData prop)) = _
    simp [NewIdentityFromStream, decodeData_encode, hopt]
  refine ⟨h, ?_⟩
  intro j hj
  rw [h] at hj
  obtain rfl : i = j := by injection hj
  exact ⟨rfl, fun n => rfl, rfl⟩

/-- C10 witness: the round-trip at a concrete session. -/
theorem save_load_roundtrip_witness :
    NewIdentityFromStream sessionOne.SaveToStream = some sessionOne :=
  (save_load_roundtrip sessionOne).1

end identity
